import Mathlib

/-!
# Verification of the pdf-suite annotation backend

Shallow embedding of the annotation pipeline of the Express backend
(`/api/annotate` route and its helpers `convertCoords`, `hexToRgb`,
`parsePageRange`) of the pdf-suite repository.

Modelling conventions:

* JavaScript numbers are modelled as exact rationals (`ℚ`).  All the
  arithmetic the pipeline performs on the inputs appearing in the claims is
  division, multiplication, addition and subtraction, which the idealised
  rational semantics tracks exactly; IEEE rounding is not modelled.  The
  special values produced by JavaScript division by zero (`Infinity`,
  `-Infinity`, `NaN`) are modelled separately by the `JSNum` type and
  `convertCoordsJS`, which is the same source expression translated with
  IEEE-style special-value propagation; `convertCoordsJS_num` proves the two
  translations agree whenever both canvas dimensions are nonzero.
* JavaScript strings are modelled as `String`; character-level processing
  (the hex-colour regular expression, `parseInt`, `split`, `trim`) is done
  on `String.data`, i.e. on `List Char`, with helper functions that mirror
  the JavaScript semantics.
* A missing object field (`undefined` in JavaScript) is modelled with
  `Option`; reading a property of `undefined` (destructuring
  `ann.canvasSize`, `ann.rect`, or calling `.length`/`.map` on a missing
  `ann.paths`) throws a `TypeError`, modelled as `Except.error
  AnnError.typeError`.  The route's `try`/`catch` turns such an exception
  into an HTTP 500 response without result bytes, so an `Except.error`
  outcome of `applyAnnotations` means "the operation fails and returns no
  result bytes".
* The mutations performed on the document are modelled as the trace of
  drawing-primitive calls (`DrawCall`), in the order they are issued; the
  serialized output bytes are a function of the loaded document and that
  trace, so two runs with the same trace return the same bytes.
-/

/-- Page dimensions as returned by `page.getSize()` (page points,
bottom-left origin). -/
structure PageGeometry where
  width : ℚ
  height : ℚ
deriving DecidableEq, Repr

/-- The `ann.canvasSize` object: dimensions in pixels of the on-screen
canvas the user drew on. -/
structure CanvasSize where
  width : ℚ
  height : ℚ
deriving DecidableEq, Repr

/-- The `ann.rect` object of a highlight: top-left-origin canvas pixels. -/
structure Rect where
  x : ℚ
  y : ℚ
  width : ℚ
  height : ℚ
deriving DecidableEq, Repr

/-- An RGB colour with channels in [0,1], as built by pdf-lib's `rgb`. -/
structure Rgb where
  r : ℚ
  g : ℚ
  b : ℚ
deriving DecidableEq, Repr

/-- pdf-lib's `LineCapStyle` enumeration; the source uses `Round`. -/
inductive LineCapStyle where
  | Butt
  | Round
  | Projecting
deriving DecidableEq, Repr

/-- One annotation record as deserialized from the request JSON.  `Option`
models a field that may be absent (`undefined`).  `page` is an `Int`
because the request may carry any integer, including `-1`. -/
structure Annot where
  page : Int
  type : String
  canvasSize : Option CanvasSize
  color : Option String
  rect : Option Rect
  paths : Option (List (ℚ × ℚ))
  strokeWidth : Option ℚ
deriving DecidableEq, Repr

/-- The JavaScript `TypeError` raised by reading a property of
`undefined`, e.g. destructuring a missing `ann.canvasSize`. -/
inductive AnnError where
  | typeError
deriving DecidableEq, Repr

/-- One invocation of a pdf-lib drawing primitive, with the argument values
the source passes: `page.drawRectangle({x, y, width, height, color,
opacity})` and `page.drawSvgPath(path, {borderColor, borderWidth,
borderLineCap})`.  For the SVG path the source formats the converted
points, in order, into the string `M p0 L p1 p2 ...`; the call is recorded
with that list of converted points. -/
inductive DrawCall where
  | fillRect (page : Nat) (x y width height : ℚ) (color : Rgb) (opacity : ℚ)
  | strokePath (page : Nat) (points : List (ℚ × ℚ)) (color : Rgb)
      (borderWidth : ℚ) (cap : LineCapStyle)
deriving DecidableEq, Repr

/-! ## The coordinate mapper (`convertCoords`, source lines 497-501) -/

/-- The `convertCoords` closure of the annotate route, with its captured
variables made explicit parameters:
`pdfX = (x / canvasWidth) * pdfPageWidth`,
`pdfY = pdfPageHeight - ((y / canvasHeight) * pdfPageHeight)`.
JavaScript numbers are modelled as exact rationals; the claims about this
function all assume nonzero canvas dimensions, and `convertCoordsJS` below
models the same expression with the IEEE special values JavaScript
produces when a canvas dimension is zero. -/
def convertCoords (canvasWidth canvasHeight pdfPageWidth pdfPageHeight : ℚ)
    (x y : ℚ) : ℚ × ℚ :=
  ((x / canvasWidth) * pdfPageWidth,
   pdfPageHeight - (y / canvasHeight) * pdfPageHeight)

/-- A JavaScript number: a finite value (exact rational), one of the two
infinities, or `NaN`. -/
inductive JSNum where
  | num (q : ℚ)
  | posInf
  | negInf
  | nan
deriving DecidableEq, Repr

/-- JavaScript `/` on numbers (finite arithmetic exact, special values per
IEEE-754: `a / 0` is `NaN` when `a = 0` and a sign-matching infinity
otherwise, since the literal divisor is positive zero). -/
def jsDiv : JSNum → JSNum → JSNum
  | .num a, .num b =>
    if b = 0 then (if a = 0 then .nan else if 0 < a then .posInf else .negInf)
    else .num (a / b)
  | .num _, .posInf => .num 0
  | .num _, .negInf => .num 0
  | .posInf, .num b => if 0 ≤ b then .posInf else .negInf
  | .negInf, .num b => if 0 ≤ b then .negInf else .posInf
  | _, _ => .nan

/-- JavaScript `*` on numbers (finite arithmetic exact, special values per
IEEE-754: `Infinity * 0` is `NaN`, otherwise infinities keep the product
sign). -/
def jsMul : JSNum → JSNum → JSNum
  | .num a, .num b => .num (a * b)
  | .num a, .posInf => if a = 0 then .nan else if 0 < a then .posInf else .negInf
  | .posInf, .num a => if a = 0 then .nan else if 0 < a then .posInf else .negInf
  | .num a, .negInf => if a = 0 then .nan else if 0 < a then .negInf else .posInf
  | .negInf, .num a => if a = 0 then .nan else if 0 < a then .negInf else .posInf
  | .posInf, .posInf => .posInf
  | .negInf, .negInf => .posInf
  | .posInf, .negInf => .negInf
  | .negInf, .posInf => .negInf
  | _, _ => .nan

/-- JavaScript `-` on numbers (finite arithmetic exact, special values per
IEEE-754: `Infinity - Infinity` is `NaN`). -/
def jsSub : JSNum → JSNum → JSNum
  | .num a, .num b => .num (a - b)
  | .num _, .posInf => .negInf
  | .num _, .negInf => .posInf
  | .posInf, .num _ => .posInf
  | .negInf, .num _ => .negInf
  | .posInf, .negInf => .posInf
  | .negInf, .posInf => .negInf
  | _, _ => .nan

/-- The `convertCoords` closure translated operation by operation with
JavaScript's special-value semantics: the source contains no guard, so a
zero canvas dimension flows into the division unchecked. -/
def convertCoordsJS (canvasWidth canvasHeight pdfPageWidth pdfPageHeight : JSNum)
    (x y : JSNum) : JSNum × JSNum :=
  (jsMul (jsDiv x canvasWidth) pdfPageWidth,
   jsSub pdfPageHeight (jsMul (jsDiv y canvasHeight) pdfPageHeight))

/-! ## Colour parsing (`hexToRgb`, source lines 107-117) -/

/-- The character class `[a-f\d]` of the colour regular expression under
the `i` flag: a decimal digit or a hexadecimal letter of either case. -/
def isHexDigit (c : Char) : Bool :=
  c.isDigit || ('a' ≤ c && c ≤ 'f') || ('A' ≤ c && c ≤ 'F')

/-- Numeric value of one hexadecimal digit (as consumed by
`parseInt(_, 16)`). -/
def hexDigitVal (c : Char) : Nat :=
  if c.isDigit then c.toNat - '0'.toNat
  else if 'a' ≤ c && c ≤ 'f' then c.toNat - 'a'.toNat + 10
  else c.toNat - 'A'.toNat + 10

/-- The optional `#?` prefix of the colour regular expression. -/
def dropHash : List Char → List Char
  | '#' :: rest => rest
  | cs => cs

/-- Value of a list of hexadecimal digits, most significant first. -/
def hexVal (ds : List Char) : Nat :=
  ds.foldl (fun a c => a * 16 + hexDigitVal c) 0

/-- Executing `/^#?([a-f\d]{2})([a-f\d]{2})([a-f\d]{2})$/i.exec(hex)`:
after the optional `#` there must be exactly six characters of the class
`[a-f\d]` (case-insensitive); the three captured pairs are returned as the
values `parseInt(_, 16)` produces from them. -/
def execHexRegex (s : String) : Option (Nat × Nat × Nat) :=
  match dropHash s.data with
  | [c1, c2, c3, c4, c5, c6] =>
    if [c1, c2, c3, c4, c5, c6].all isHexDigit then
      some (hexVal [c1, c2], hexVal [c3, c4], hexVal [c5, c6])
    else none
  | _ => none

/-- Whether the colour string matches the regular expression (the claims'
"6-hex-digit string, with or without a leading '#'"). -/
def hexMatchOk (s : String) : Bool :=
  (execHexRegex s).isSome

/-- The `hexToRgb` helper.  `none` models an absent (`undefined`) field;
the JavaScript falsiness test `!hex` is also true for the empty string.
On a regex match each captured pair is scaled by 255 into a channel in
[0,1]; otherwise the result is the yellow default `rgb(1, 1, 0)`. -/
def hexToRgb (hex : Option String) : Rgb :=
  match hex with
  | none => ⟨1, 1, 0⟩
  | some s =>
    if s = "" then ⟨1, 1, 0⟩
    else
      match execHexRegex s with
      | some (rv, gv, bv) => ⟨(rv : ℚ) / 255, (gv : ℚ) / 255, (bv : ℚ) / 255⟩
      | none => ⟨1, 1, 0⟩

/-! ## The annotate route's per-item loop (source lines 483-541) -/

/-- The indexing `pages[ann.page]`; the loop's range guard ensures the
index is in bounds whenever this is evaluated, so the default value is
never produced. -/
def pageAt (pages : List PageGeometry) (i : Int) : PageGeometry :=
  pages.getD i.toNat ⟨0, 0⟩

/-- The stroke-width expression `ann.strokeWidth || 3`: JavaScript `||`
takes the default when the left side is falsy, i.e. absent (`undefined`)
or zero. -/
def resolveStrokeWidth (w : Option ℚ) : ℚ :=
  match w with
  | none => 3
  | some v => if v = 0 then 3 else v

/-- One iteration of `for (const ann of annotations)`: the draw calls the
iteration issues, or the exception it throws.

* An out-of-range `ann.page` hits `continue` before touching any other
  field: no draw call, no error.
* Destructuring `ann.canvasSize` when the field is absent throws a
  `TypeError` (this happens before the `ann.type` dispatch).
* `'highlight'`: the top-left and bottom-right corners are converted
  independently and one `drawRectangle` call is issued with
  `y = pdfY2`, `width = (width / canvasWidth) * pdfPageWidth`,
  `height = pdfY1 - pdfY2`, the parsed colour, and opacity `0.3`;
  a missing `ann.rect` throws.
* `'draw'`: a missing `ann.paths` throws (`.length` of `undefined`);
  fewer than 2 points hits `continue`; otherwise the points are converted
  in order and one `drawSvgPath` call is issued with the parsed colour,
  `ann.strokeWidth || 3` and round line caps.
* Any other `ann.type` issues nothing. -/
def processAnn (pages : List PageGeometry) (ann : Annot) :
    Except AnnError (List DrawCall) :=
  if ann.page < 0 ∨ (pages.length : Int) ≤ ann.page then .ok []
  else
    let pg := pageAt pages ann.page
    match ann.canvasSize with
    | none => .error .typeError
    | some cs =>
      let color := hexToRgb ann.color
      if ann.type = "highlight" then
        match ann.rect with
        | none => .error .typeError
        | some r =>
          let p1 := convertCoords cs.width cs.height pg.width pg.height r.x r.y
          let p2 := convertCoords cs.width cs.height pg.width pg.height
            (r.x + r.width) (r.y + r.height)
          let pdfWidth := (r.width / cs.width) * pg.width
          let pdfHeight := p1.2 - p2.2
          .ok [.fillRect ann.page.toNat p1.1 p2.2 pdfWidth pdfHeight color (3 / 10)]
      else if ann.type = "draw" then
        match ann.paths with
        | none => .error .typeError
        | some ps =>
          if ps.length < 2 then .ok []
          else
            let converted := ps.map fun pt =>
              convertCoords cs.width cs.height pg.width pg.height pt.1 pt.2
            .ok [.strokePath ann.page.toNat converted color
              (resolveStrokeWidth ann.strokeWidth) .Round]
      else .ok []

/-- The whole annotate loop: iterations run in list order; an uncaught
exception aborts the loop (the route's `catch` then answers with an error
and no bytes), otherwise the concatenated draw-call trace determines the
serialized result bytes. -/
def applyAnnotations (pages : List PageGeometry) :
    List Annot → Except AnnError (List DrawCall)
  | [] => .ok []
  | ann :: rest =>
    match processAnn pages ann with
    | .error e => .error e
    | .ok calls =>
      match applyAnnotations pages rest with
      | .error e => .error e
      | .ok more => .ok (calls ++ more)

/-! ## The split helper (`parsePageRange`, source lines 61-88)

The character-level string processing (`split`, `trim`, `parseInt`) is
modelled on `List Char`. -/

/-- JavaScript `String.prototype.split` with a one-character separator. -/
def splitOnChar (sep : Char) : List Char → List (List Char)
  | [] => [[]]
  | c :: rest =>
    let r := splitOnChar sep rest
    if c = sep then [] :: r
    else
      match r with
      | [] => [[c]]
      | first :: others => (c :: first) :: others

/-- JavaScript `String.prototype.trim`: strip leading and trailing
whitespace. -/
def trimChars (cs : List Char) : List Char :=
  ((cs.dropWhile Char.isWhitespace).reverse.dropWhile Char.isWhitespace).reverse

/-- Leading decimal digits of a character list. -/
def decDigits (cs : List Char) : List Char :=
  cs.takeWhile Char.isDigit

/-- Value of a list of decimal digits, most significant first. -/
def decVal (ds : List Char) : Nat :=
  ds.foldl (fun a c => a * 10 + (c.toNat - '0'.toNat)) 0

/-- JavaScript `parseInt(s)` with the radix argument omitted: skip leading
whitespace, read an optional sign, use base 16 when a `0x`/`0X` prefix
follows, otherwise base 10; consume the longest digit run and ignore any
trailing garbage; yield `NaN` (modelled as `none`) when no digit was
consumed. -/
def jsParseIntChars (cs : List Char) : Option Int :=
  let cs1 := cs.dropWhile Char.isWhitespace
  let sgn : Int := match cs1 with
    | '-' :: _ => -1
    | _ => 1
  let cs2 := match cs1 with
    | '+' :: t => t
    | '-' :: t => t
    | _ => cs1
  match cs2 with
  | '0' :: c :: t =>
    if c = 'x' ∨ c = 'X' then
      let ds := t.takeWhile isHexDigit
      if ds.isEmpty then none else some (sgn * (hexVal ds : Int))
    else some (sgn * (decVal (decDigits cs2) : Int))
  | _ =>
    let ds := decDigits cs2
    if ds.isEmpty then none else some (sgn * (decVal ds : Int))

/-- The two endpoints of a dash token:
`const [startStr, endStr] = trimmed.split('-')` followed by
`parseInt(startStr.trim())` and `parseInt(endStr.trim())`.  `split`
returns at least one piece, so `startStr` always exists; when the guard
`trimmed.includes('-')` holds the split has at least two pieces, so the
`none` fallback for a missing second piece is never taken there. -/
def parseRangeEnds (trimmed : List Char) : Option Int × Option Int :=
  let segs := splitOnChar '-' trimmed
  (jsParseIntChars (trimChars (segs.getD 0 [])),
   match segs.get? 1 with
   | some t => jsParseIntChars (trimChars t)
   | none => none)

/-- The inner loop `for (let i = start; i <= Math.min(end, maxPages); i++)
{ if (i > 0) pages.add(i); }`, modelled by folding the guarded `add` over
the iteration count. -/
def addRangePages (maxPages lo hi : Int) (acc : Finset Int) : Finset Int :=
  (List.range (min hi maxPages + 1 - lo).toNat).foldl
    (fun (a : Finset Int) (k : Nat) =>
      if 0 < lo + (k : Int) then insert (lo + (k : Int)) a else a) acc

/-- Processing of one comma-separated token of the range string: dash
tokens add their clamped sub-range when both endpoints parse and
`start <= end`; plain tokens add their value when it parses and lies in
`(0, maxPages]`; anything else leaves the page set unchanged. -/
def pagesOfPart (maxPages : Int) (acc : Finset Int) (part : List Char) : Finset Int :=
  let trimmed := trimChars part
  if trimmed.contains '-' then
    match parseRangeEnds trimmed with
    | (some s, some e) => if s ≤ e then addRangePages maxPages s e acc else acc
    | _ => acc
  else
    match jsParseIntChars trimmed with
    | some n => if 0 < n ∧ n ≤ maxPages then insert n acc else acc
    | none => acc

/-- The `parsePageRange` helper: split the range string on commas, collect
the pages of each token into a `Set`, and return
`Array.from(pages).sort((a, b) => a - b)`, i.e. the set's elements in
increasing numeric order. -/
def parsePageRange (range : String) (maxPages : Int) : List Int :=
  ((splitOnChar ',' range.data).foldl (pagesOfPart maxPages) ∅).sort (· ≤ ·)

/-! ## Concrete inputs used by counterexamples and witnesses -/

/-- The spec's test scenario: a 2-page document, both pages 600x800. -/
def demoPages : List PageGeometry := [⟨600, 800⟩, ⟨600, 800⟩]

/-- The spec's test highlight: page 0, canvas 300x400, rect
(30, 40, 60, 80), colour `#FF0000`. -/
def demoHighlight : Annot :=
  { page := 0, type := "highlight", canvasSize := some ⟨300, 400⟩,
    color := some "#FF0000", rect := some ⟨30, 40, 60, 80⟩,
    paths := none, strokeWidth := none }

/-- A malformed highlight on a valid page: the `canvasSize` field is
absent. -/
def demoMalformed : Annot :=
  { page := 0, type := "highlight", canvasSize := none, color := none,
    rect := some ⟨30, 40, 60, 80⟩, paths := none, strokeWidth := none }

/-- A malformed highlight on a valid page: the `rect` field is absent. -/
def demoNoRect : Annot :=
  { page := 0, type := "highlight", canvasSize := some ⟨300, 400⟩,
    color := none, rect := none, paths := none, strokeWidth := none }

/-- A freehand stroke with two points on a valid page. -/
def demoStroke : Annot :=
  { page := 0, type := "draw", canvasSize := some ⟨300, 400⟩,
    color := none, rect := none, paths := some [(0, 0), (30, 40)],
    strokeWidth := none }

/-- An annotation whose `page` equals the page count (one past the last
page) of `demoPages`. -/
def demoOutOfRange : Annot :=
  { page := 2, type := "highlight", canvasSize := some ⟨300, 400⟩,
    color := none, rect := some ⟨0, 0, 1, 1⟩, paths := none,
    strokeWidth := none }

/-! ## Helper lemmas -/

/-- On finite inputs with nonzero canvas dimensions the special-value
translation `convertCoordsJS` agrees with the exact-rational translation
`convertCoords`, so the two models coincide on the domain the functional
claims quantify over. -/
theorem convertCoordsJS_num (cw ch pw ph x y : ℚ) (hcw : cw ≠ 0) (hch : ch ≠ 0) :
    convertCoordsJS (.num cw) (.num ch) (.num pw) (.num ph) (.num x) (.num y)
      = (.num ((x / cw) * pw), .num (ph - (y / ch) * ph)) := by
  simp [convertCoordsJS, convertCoords, jsDiv, jsMul, jsSub, hcw, hch]

/-- Evaluating the colour parser on the scenario colour `#FF0000`. -/
theorem hexToRgb_red : hexToRgb (some "#FF0000") = ⟨1, 0, 0⟩ := by
  have h : execHexRegex "#FF0000" = some (255, 0, 0) := by decide
  have hne : ("#FF0000" : String) = "" ↔ False := by simp
  simp [hexToRgb, h, hne]

/-- Invariant of the guarded-insert loop body of `addRangePages`: folding
`if 0 < lo + k then insert (lo + k)` over a list of offsets that keep
`lo + k ≤ maxPages` preserves "every member lies in `[1, maxPages]`". -/
theorem mem_guardInsert_foldl (maxPages lo : Int) :
    ∀ (L : List Nat) (acc : Finset Int),
      (∀ p ∈ acc, 1 ≤ p ∧ p ≤ maxPages) →
      (∀ k ∈ L, lo + (k : Int) ≤ maxPages) →
      ∀ p ∈ L.foldl (fun (a : Finset Int) (k : Nat) =>
          if 0 < lo + (k : Int) then insert (lo + (k : Int)) a else a) acc,
        1 ≤ p ∧ p ≤ maxPages := by
  intro L
  induction L with
  | nil => intro acc hacc _ p hp; exact hacc p hp
  | cons k t ih =>
    intro acc hacc hL p hp
    rw [List.foldl_cons] at hp
    refine ih _ ?_ ?_ p hp
    · intro q hq
      by_cases hk : 0 < lo + (k : Int)
      · rw [if_pos hk] at hq
        rcases Finset.mem_insert.mp hq with rfl | hq'
        · exact ⟨by omega, hL k (List.mem_cons_self k t)⟩
        · exact hacc q hq'
      · rw [if_neg hk] at hq
        exact hacc q hq
    · intro k' hk'
      exact hL k' (List.mem_cons_of_mem _ hk')

/-- Every page added by the dash-range loop lies in `[1, maxPages]`:
the loop bound clamps at `min hi maxPages` and the guard skips `i ≤ 0`. -/
theorem mem_addRangePages (maxPages lo hi : Int) (acc : Finset Int)
    (hacc : ∀ p ∈ acc, 1 ≤ p ∧ p ≤ maxPages) :
    ∀ p ∈ addRangePages maxPages lo hi acc, 1 ≤ p ∧ p ≤ maxPages := by
  intro p hp
  unfold addRangePages at hp
  refine mem_guardInsert_foldl maxPages lo _ acc hacc ?_ p hp
  intro k hk
  have hk' := List.mem_range.mp hk
  omega

/-- Processing one token of the range string preserves "every member of
the page set lies in `[1, maxPages]`". -/
theorem mem_pagesOfPart (maxPages : Int) (acc : Finset Int) (part : List Char)
    (hacc : ∀ p ∈ acc, 1 ≤ p ∧ p ≤ maxPages) :
    ∀ p ∈ pagesOfPart maxPages acc part, 1 ≤ p ∧ p ≤ maxPages := by
  intro p hp
  unfold pagesOfPart at hp
  dsimp only at hp
  split at hp
  · split at hp
    · split at hp
      · exact mem_addRangePages maxPages _ _ acc hacc p hp
      · exact hacc p hp
    · exact hacc p hp
  · split at hp
    · split at hp
      · rcases Finset.mem_insert.mp hp with rfl | hp'
        · rename_i n hn hcond
          exact ⟨by omega, hcond.2⟩
        · exact hacc p hp'
      · exact hacc p hp
    · exact hacc p hp

/-- Folding `pagesOfPart` over all comma-separated tokens preserves the
`[1, maxPages]` membership invariant. -/
theorem mem_parts_foldl (maxPages : Int) :
    ∀ (parts : List (List Char)) (acc : Finset Int),
      (∀ p ∈ acc, 1 ≤ p ∧ p ≤ maxPages) →
      ∀ p ∈ parts.foldl (pagesOfPart maxPages) acc, 1 ≤ p ∧ p ≤ maxPages := by
  intro parts
  induction parts with
  | nil => intro acc hacc p hp; exact hacc p hp
  | cons a t ih =>
    intro acc hacc p hp
    rw [List.foldl_cons] at hp
    exact ih _ (mem_pagesOfPart maxPages acc a hacc) p hp

/-- Unfolding the highlight branch of the loop body: on a valid page with
`canvasSize` and `rect` present, the iteration issues exactly the
`drawRectangle` call of the source, with `y = pdfY2` (the mapped
bottom-right corner's Y) and `height = pdfY1 - pdfY2`. -/
theorem processAnn_highlight (pages : List PageGeometry) (ann : Annot)
    (cs : CanvasSize) (r : Rect)
    (h0 : 0 ≤ ann.page) (h1 : ann.page < (pages.length : Int))
    (htype : ann.type = "highlight") (hcs : ann.canvasSize = some cs)
    (hr : ann.rect = some r) :
    processAnn pages ann =
      .ok [DrawCall.fillRect ann.page.toNat
        (convertCoords cs.width cs.height (pageAt pages ann.page).width
          (pageAt pages ann.page).height r.x r.y).1
        (convertCoords cs.width cs.height (pageAt pages ann.page).width
          (pageAt pages ann.page).height (r.x + r.width) (r.y + r.height)).2
        ((r.width / cs.width) * (pageAt pages ann.page).width)
        ((convertCoords cs.width cs.height (pageAt pages ann.page).width
            (pageAt pages ann.page).height r.x r.y).2 -
          (convertCoords cs.width cs.height (pageAt pages ann.page).width
            (pageAt pages ann.page).height (r.x + r.width) (r.y + r.height)).2)
        (hexToRgb ann.color) (3 / 10)] := by
  unfold processAnn
  rw [if_neg (by omega)]
  rw [hcs]
  dsimp only
  rw [htype, if_pos rfl, hr]

/-- Unfolding the freehand branch of the loop body: on a valid page with
`canvasSize` and `paths` present, the iteration issues nothing when the
path has fewer than 2 points, and otherwise exactly the `drawSvgPath`
call of the source. -/
theorem processAnn_draw (pages : List PageGeometry) (ann : Annot)
    (cs : CanvasSize) (ps : List (ℚ × ℚ))
    (h0 : 0 ≤ ann.page) (h1 : ann.page < (pages.length : Int))
    (htype : ann.type = "draw") (hcs : ann.canvasSize = some cs)
    (hps : ann.paths = some ps) :
    processAnn pages ann =
      if ps.length < 2 then .ok []
      else
        .ok [DrawCall.strokePath ann.page.toNat
          (ps.map fun pt => convertCoords cs.width cs.height
            (pageAt pages ann.page).width (pageAt pages ann.page).height pt.1 pt.2)
          (hexToRgb ann.color) (resolveStrokeWidth ann.strokeWidth) .Round] := by
  unfold processAnn
  rw [if_neg (by omega)]
  rw [hcs]
  dsimp only
  rw [htype, if_neg (by simp), if_pos rfl, hps]

/-- Evaluating the whole pipeline on the spec's test scenario: the one
highlight annotation produces the single draw call
`fillRect 0 60 560 120 160 red 0.3` (page-space Y origin
`800 - ((40+80)/400)*800 = 560`). -/
theorem annotateDemoTrace :
    applyAnnotations demoPages [demoHighlight] =
      .ok [DrawCall.fillRect 0 60 560 120 160 ⟨1, 0, 0⟩ (3 / 10)] := by
  simp [applyAnnotations, processAnn, demoPages, demoHighlight, pageAt,
    convertCoords, hexToRgb_red]
  norm_num

/-! ## The claims -/

/-- Claim C1: for every point `(x, y)`, canvas size `(cw, ch)` with
`cw ≠ 0` and `ch ≠ 0`, and page geometry `(pw, ph)`, the coordinate
mapper returns exactly `pageX = (x / cw) * pw` and
`pageY = ph - (y / ch) * ph`; in particular `(0, 0)` maps to `(0, ph)`
and `(cw, ch)` maps to `(pw, 0)`. -/
theorem C1_convertCoords_formula (x y cw ch pw ph : ℚ)
    (hcw : cw ≠ 0) (hch : ch ≠ 0) :
    convertCoords cw ch pw ph x y = ((x / cw) * pw, ph - (y / ch) * ph) ∧
    convertCoords cw ch pw ph 0 0 = (0, ph) ∧
    convertCoords cw ch pw ph cw ch = (pw, 0) := by
  refine ⟨rfl, ?_, ?_⟩
  · simp [convertCoords]
  · simp [convertCoords, div_self hcw, div_self hch]

/-- Witness for C1 at the concrete input `cw = 2`, `ch = 4`, `pw = 10`,
`ph = 20`: the corner `(cw, ch)` maps to `(pw, 0)`. -/
theorem C1_convertCoords_formula_witness :
    (2 : ℚ) ≠ 0 ∧ convertCoords 2 4 10 20 2 4 = (10, 0) :=
  ⟨by norm_num,
    (C1_convertCoords_formula 2 4 2 4 10 20 (by norm_num) (by norm_num)).2.2⟩

/-- Claim C2: a highlight annotation on a valid page with
`width, height ≥ 0`, positive canvas dimensions and (nonnegative-height)
page geometry issues exactly one filled-rectangle draw call, whose
geometry maps the top-left and bottom-right corners independently: the
page-space origin Y is the smaller of the two mapped Y values, the width
is `(width / cw) * pw`, the height is the absolute difference of the two
mapped Y values, and the opacity is always `0.3` regardless of colour. -/
theorem C2_highlight_rect_call (pages : List PageGeometry) (ann : Annot)
    (cs : CanvasSize) (r : Rect)
    (h0 : 0 ≤ ann.page) (h1 : ann.page < (pages.length : Int))
    (htype : ann.type = "highlight") (hcs : ann.canvasSize = some cs)
    (hr : ann.rect = some r)
    (hcw : 0 < cs.width) (hch : 0 < cs.height)
    (hw : 0 ≤ r.width) (hh : 0 ≤ r.height)
    (hph : 0 ≤ (pageAt pages ann.page).height) :
    processAnn pages ann =
      .ok [DrawCall.fillRect ann.page.toNat
        (convertCoords cs.width cs.height (pageAt pages ann.page).width
          (pageAt pages ann.page).height r.x r.y).1
        (min (convertCoords cs.width cs.height (pageAt pages ann.page).width
            (pageAt pages ann.page).height r.x r.y).2
          (convertCoords cs.width cs.height (pageAt pages ann.page).width
            (pageAt pages ann.page).height (r.x + r.width) (r.y + r.height)).2)
        ((r.width / cs.width) * (pageAt pages ann.page).width)
        |(convertCoords cs.width cs.height (pageAt pages ann.page).width
            (pageAt pages ann.page).height r.x r.y).2 -
          (convertCoords cs.width cs.height (pageAt pages ann.page).width
            (pageAt pages ann.page).height (r.x + r.width) (r.y + r.height)).2|
        (hexToRgb ann.color) (3 / 10)] := by
  have key : (convertCoords cs.width cs.height (pageAt pages ann.page).width
      (pageAt pages ann.page).height (r.x + r.width) (r.y + r.height)).2 ≤
      (convertCoords cs.width cs.height (pageAt pages ann.page).width
        (pageAt pages ann.page).height r.x r.y).2 := by
    simp only [convertCoords]
    have hsplit : (r.y + r.height) / cs.height
        = r.y / cs.height + r.height / cs.height := add_div _ _ _
    have hd : 0 ≤ (r.height / cs.height) * (pageAt pages ann.page).height :=
      mul_nonneg (div_nonneg hh hch.le) hph
    rw [hsplit, add_mul]
    linarith
  rw [processAnn_highlight pages ann cs r h0 h1 htype hcs hr,
    min_eq_right key, abs_of_nonneg (by linarith)]

/-- Witness for C2 on the spec's scenario highlight (page 0 of the 2-page
600x800 document, canvas 300x400, rect `(30, 40, 60, 80)`, colour
`#FF0000`). -/
theorem C2_highlight_rect_call_witness :
    processAnn demoPages demoHighlight =
      .ok [DrawCall.fillRect 0
        (convertCoords 300 400 600 800 30 40).1
        (min (convertCoords 300 400 600 800 30 40).2
          (convertCoords 300 400 600 800 (30 + 60) (40 + 80)).2)
        ((60 / 300) * 600)
        |(convertCoords 300 400 600 800 30 40).2 -
          (convertCoords 300 400 600 800 (30 + 60) (40 + 80)).2|
        (hexToRgb (some "#FF0000")) (3 / 10)] :=
  C2_highlight_rect_call demoPages demoHighlight ⟨300, 400⟩ ⟨30, 40, 60, 80⟩
    (by decide) (by decide) rfl rfl rfl
    (by norm_num : (0 : ℚ) < 300) (by norm_num : (0 : ℚ) < 400)
    (by norm_num : (0 : ℚ) ≤ 60) (by norm_num : (0 : ℚ) ≤ 80)
    (by norm_num : (0 : ℚ) ≤ 800)

/-- Counterexample to claim C3: on the spec's scenario the pipeline does
NOT issue `fillRect 0 60 640 120 160 red 0.3` — the mapped Y origin is
`800 - ((40 + 80) / 400) * 800 = 560`, not `640` as the spec computed. -/
theorem C3_scenario_counterexample :
    applyAnnotations demoPages [demoHighlight] ≠
      .ok [DrawCall.fillRect 0 60 640 120 160 ⟨1, 0, 0⟩ (3 / 10)] := by
  rw [annotateDemoTrace]
  norm_num

/-- Claim C3 as amended: on the 2-page 600x800 document, the single
highlight with canvas 300x400, rect `(30, 40, 60, 80)` and colour
`#FF0000` produces exactly the draw call
`fillRect 0 60 560 120 160 red 0.3` (page-space origin y = 560). -/
theorem C3_scenario_amended :
    applyAnnotations demoPages [demoHighlight] =
      .ok [DrawCall.fillRect 0 60 560 120 160 ⟨1, 0, 0⟩ (3 / 10)] :=
  annotateDemoTrace

/-- Counterexample to claim C4: a highlight on a valid page whose
`canvasSize` field is absent makes the whole operation fail (the
destructuring TypeError is only caught by the route's request-level
handler), so no result bytes are returned. -/
theorem C4_malformed_counterexample :
    applyAnnotations demoPages [demoMalformed] = .error .typeError := by
  simp [applyAnnotations, processAnn, demoMalformed, demoPages]

/-- Claim C4 as amended: a malformed annotation on a valid page — missing
`canvasSize`, or a highlight missing `rect`, or a freehand stroke missing
`paths` — raises a TypeError that surfaces as a top-level failure of the
operation: no result bytes are returned (only out-of-range page indices,
short strokes and unknown kinds are skipped best-effort). -/
theorem C4_malformed_amended (pages : List PageGeometry) (ann : Annot)
    (h0 : 0 ≤ ann.page) (h1 : ann.page < (pages.length : Int)) :
    (ann.canvasSize = none → applyAnnotations pages [ann] = .error .typeError) ∧
    (∀ cs, ann.canvasSize = some cs → ann.type = "highlight" → ann.rect = none →
      applyAnnotations pages [ann] = .error .typeError) ∧
    (∀ cs, ann.canvasSize = some cs → ann.type = "draw" → ann.paths = none →
      applyAnnotations pages [ann] = .error .typeError) := by
  have hone : ∀ e, processAnn pages ann = .error e →
      applyAnnotations pages [ann] = .error e := by
    intro e he
    rw [applyAnnotations, he]
  refine ⟨?_, ?_, ?_⟩
  · intro hcs
    refine hone _ ?_
    unfold processAnn
    rw [if_neg (by omega), hcs]
  · intro cs hcs htype hr
    refine hone _ ?_
    unfold processAnn
    rw [if_neg (by omega), hcs]
    dsimp only
    rw [htype, if_pos rfl, hr]
  · intro cs hcs htype hps
    refine hone _ ?_
    unfold processAnn
    rw [if_neg (by omega), hcs]
    dsimp only
    rw [htype, if_neg (by simp), if_pos rfl, hps]

/-- Witness for the amended C4: a highlight on a valid page with
`canvasSize` present but `rect` absent also fails the whole operation. -/
theorem C4_malformed_amended_witness :
    applyAnnotations demoPages [demoNoRect] = .error .typeError :=
  (C4_malformed_amended demoPages demoNoRect (by decide) (by decide)).2.1
    ⟨300, 400⟩ rfl rfl rfl

/-- Counterexample to claim C5: with `cw = 0` (and otherwise ordinary
inputs `ch = 400`, `pw = 600`, `ph = 800`, point `(30, 40)`) the mapper's
result is `(Infinity, 720)` — the division by zero is not guarded and the
result is not the page origin. -/
theorem C5_degenerate_counterexample :
    convertCoordsJS (.num 0) (.num 400) (.num 600) (.num 800)
      (.num 30) (.num 40) = (JSNum.posInf, JSNum.num 720) ∧
    (JSNum.posInf, JSNum.num 720) ≠ (JSNum.num 0, JSNum.num 0) := by
  constructor
  · simp only [convertCoordsJS, jsDiv, jsMul, jsSub]
    norm_num
  · simp

/-- Claim C5 as amended: on a degenerate canvas size the mapper does not
raise (JavaScript division by zero yields an infinity, not an exception),
but there is no guard: for `cw = 0` and any positive `x` and `pw` the
mapped X coordinate is `+Infinity` — a non-finite value, not the page
origin. -/
theorem C5_degenerate_amended (x pw : ℚ) (hx : 0 < x) (hpw : 0 < pw)
    (ch ph y : JSNum) :
    (convertCoordsJS (.num 0) ch (.num pw) ph (.num x) y).1 = JSNum.posInf := by
  simp [convertCoordsJS, jsDiv, jsMul, hx.ne', hpw.ne', hx, hpw]

/-- Witness for the amended C5 at `x = 30`, `pw = 600`. -/
theorem C5_degenerate_amended_witness : (0 : ℚ) < 30 ∧
    (convertCoordsJS (.num 0) (.num 400) (.num 600) (.num 800)
      (.num 30) (.num 40)).1 = JSNum.posInf :=
  ⟨by norm_num,
    C5_degenerate_amended 30 600 (by norm_num) (by norm_num)
      (.num 400) (.num 800) (.num 40)⟩

/-- Claim C6: a freehand stroke on a valid page issues zero draw calls
when it has fewer than 2 points (silent skip, not an error), and with 2
or more points exactly one stroked-path call with every point mapped
independently in original order, round line caps, and stroke width
`ann.strokeWidth`, defaulting to 3 when unset or zero. -/
theorem C6_freehand_calls (pages : List PageGeometry) (ann : Annot)
    (cs : CanvasSize) (ps : List (ℚ × ℚ))
    (h0 : 0 ≤ ann.page) (h1 : ann.page < (pages.length : Int))
    (htype : ann.type = "draw") (hcs : ann.canvasSize = some cs)
    (hps : ann.paths = some ps) :
    (ps.length < 2 → processAnn pages ann = .ok []) ∧
    (2 ≤ ps.length → processAnn pages ann =
      .ok [DrawCall.strokePath ann.page.toNat
        (ps.map fun pt => convertCoords cs.width cs.height
          (pageAt pages ann.page).width (pageAt pages ann.page).height pt.1 pt.2)
        (hexToRgb ann.color) (resolveStrokeWidth ann.strokeWidth) .Round]) ∧
    resolveStrokeWidth none = 3 ∧ resolveStrokeWidth (some 0) = 3 ∧
    (∀ w : ℚ, w ≠ 0 → resolveStrokeWidth (some w) = w) := by
  have hbr := processAnn_draw pages ann cs ps h0 h1 htype hcs hps
  refine ⟨?_, ?_, rfl, by simp [resolveStrokeWidth], ?_⟩
  · intro hlen
    rw [hbr, if_pos hlen]
  · intro hlen
    rw [hbr, if_neg (by omega)]
  · intro w hw
    simp [resolveStrokeWidth, hw]

/-- Witness for C6: a two-point stroke on page 0 issues exactly one
stroked-path call with both points mapped in order, the default yellow
colour, the default stroke width 3, and round caps. -/
theorem C6_freehand_calls_witness :
    2 ≤ ([((0 : ℚ), (0 : ℚ)), (30, 40)] : List (ℚ × ℚ)).length ∧
    processAnn demoPages demoStroke =
      .ok [DrawCall.strokePath 0
        (([((0 : ℚ), (0 : ℚ)), (30, 40)] : List (ℚ × ℚ)).map fun pt =>
          convertCoords 300 400 600 800 pt.1 pt.2)
        ⟨1, 1, 0⟩ 3 .Round] :=
  ⟨by norm_num,
    (C6_freehand_calls demoPages demoStroke ⟨300, 400⟩ [(0, 0), (30, 40)]
      (by decide) (by decide) rfl rfl rfl).2.1 (by norm_num)⟩

/-- Claim C7: an annotation whose page index is out of range
(`page < 0` or `page ≥ pageCount`) is skipped without issuing any draw
call and without aborting the batch — the run behaves exactly as if the
annotation were absent, so the operation still succeeds with the
serialized bytes of all other valid annotations. -/
theorem C7_out_of_range_skipped (pages : List PageGeometry)
    (pre post : List Annot) (ann : Annot)
    (h : ann.page < 0 ∨ (pages.length : Int) ≤ ann.page) :
    applyAnnotations pages (pre ++ ann :: post) =
      applyAnnotations pages (pre ++ post) := by
  induction pre with
  | nil =>
    have hskip : processAnn pages ann = .ok [] := by
      unfold processAnn
      rw [if_pos h]
    simp only [List.nil_append]
    rw [applyAnnotations, hskip]
    dsimp only
    rcases applyAnnotations pages post with e | calls
    · rfl
    · rfl
  | cons a t ih =>
    simp only [List.cons_append]
    rw [applyAnnotations, applyAnnotations, ih]

/-- Witness for C7: an annotation with `page = pageCount = 2` on the
2-page demo document is dropped from the run without affecting the rest
of the batch. -/
theorem C7_out_of_range_skipped_witness :
    ((2 : Int) < 0 ∨ ((demoPages.length : Int) ≤ 2)) ∧
    applyAnnotations demoPages [demoOutOfRange, demoHighlight] =
      applyAnnotations demoPages [demoHighlight] :=
  ⟨Or.inr (by decide),
    C7_out_of_range_skipped demoPages [] [demoHighlight] demoOutOfRange
      (Or.inr (by decide))⟩

/-- Claim C8: for `cw, ch > 0` and `pw, ph ≥ 0`, a source point inside
`[0, cw] × [0, ch]` is mapped to a page point inside `[0, pw] × [0, ph]`. -/
theorem C8_mapped_point_bounds (x y cw ch pw ph : ℚ)
    (hcw : 0 < cw) (hch : 0 < ch) (hpw : 0 ≤ pw) (hph : 0 ≤ ph)
    (hx0 : 0 ≤ x) (hx1 : x ≤ cw) (hy0 : 0 ≤ y) (hy1 : y ≤ ch) :
    0 ≤ (convertCoords cw ch pw ph x y).1 ∧ (convertCoords cw ch pw ph x y).1 ≤ pw ∧
    0 ≤ (convertCoords cw ch pw ph x y).2 ∧ (convertCoords cw ch pw ph x y).2 ≤ ph := by
  have hxd0 : 0 ≤ x / cw := div_nonneg hx0 hcw.le
  have hxd1 : x / cw ≤ 1 := (div_le_one hcw).mpr hx1
  have hyd0 : 0 ≤ y / ch := div_nonneg hy0 hch.le
  have hyd1 : y / ch ≤ 1 := (div_le_one hch).mpr hy1
  have h1 : 0 ≤ (x / cw) * pw := mul_nonneg hxd0 hpw
  have h2 : (x / cw) * pw ≤ 1 * pw := mul_le_mul_of_nonneg_right hxd1 hpw
  have h3 : 0 ≤ (y / ch) * ph := mul_nonneg hyd0 hph
  have h4 : (y / ch) * ph ≤ 1 * ph := mul_le_mul_of_nonneg_right hyd1 hph
  simp only [convertCoords]
  exact ⟨h1, by linarith, by linarith, by linarith⟩

/-- Witness for C8 at `(x, y) = (1, 3)`, `cw = 2`, `ch = 4`, `pw = 10`,
`ph = 20`. -/
theorem C8_mapped_point_bounds_witness : (0 : ℚ) < 2 ∧
    (0 ≤ (convertCoords 2 4 10 20 1 3).1 ∧ (convertCoords 2 4 10 20 1 3).1 ≤ 10 ∧
      0 ≤ (convertCoords 2 4 10 20 1 3).2 ∧ (convertCoords 2 4 10 20 1 3).2 ≤ 20) :=
  ⟨by norm_num,
    C8_mapped_point_bounds 1 3 2 4 10 20 (by norm_num) (by norm_num) (by norm_num)
      (by norm_num) (by norm_num) (by norm_num) (by norm_num) (by norm_num)⟩

/-- Claim C9: when the colour field is absent, or is a string that does
not match the 6-hex-digit pattern (with or without a leading `#`), the
colour used for the draw call is the yellow default `rgb(1, 1, 0)`. -/
theorem C9_color_default_yellow (hex : Option String)
    (h : hex = none ∨ ∃ s, hex = some s ∧ hexMatchOk s = false) :
    hexToRgb hex = ⟨1, 1, 0⟩ := by
  rcases h with rfl | ⟨s, rfl, hm⟩
  · rfl
  · unfold hexToRgb
    dsimp only
    by_cases he : s = ""
    · rw [if_pos he]
    · rw [if_neg he]
      unfold hexMatchOk at hm
      rcases hre : execHexRegex s with _ | v
      · rfl
      · rw [hre] at hm
        simp at hm

/-- Witness for C9: the malformed colour string `"red"` yields the yellow
default. -/
theorem C9_color_default_yellow_witness :
    hexMatchOk "red" = false ∧ hexToRgb (some "red") = ⟨1, 1, 0⟩ :=
  ⟨by decide, C9_color_default_yellow (some "red") (Or.inr ⟨"red", rfl, by decide⟩)⟩

/-- Claim C10: for every range string and every `maxPages ≥ 0`,
`parsePageRange` returns a strictly increasing list of distinct integers
in `[1, maxPages]`; a comma token that does not parse to an in-range
positive number contributes no pages, and a dash token whose endpoints do
not both parse or whose start exceeds its end contributes no pages —
never an exception. -/
theorem C10_parsePageRange_invariant (range : String) (maxPages : Int)
    (hM : 0 ≤ maxPages) :
    List.Sorted (· < ·) (parsePageRange range maxPages) ∧
    (∀ p ∈ parsePageRange range maxPages, 1 ≤ p ∧ p ≤ maxPages) ∧
    (∀ (acc : Finset Int) (part : List Char),
      (trimChars part).contains '-' = false →
      (∀ n : Int, jsParseIntChars (trimChars part) = some n →
        ¬(0 < n ∧ n ≤ maxPages)) →
      pagesOfPart maxPages acc part = acc) ∧
    (∀ (acc : Finset Int) (part : List Char),
      (trimChars part).contains '-' = true →
      (∀ s e : Int, (parseRangeEnds (trimChars part)).1 = some s →
        (parseRangeEnds (trimChars part)).2 = some e → e < s) →
      pagesOfPart maxPages acc part = acc) := by
  refine ⟨?_, ?_, ?_, ?_⟩
  · exact Finset.sort_sorted_lt _
  · intro p hp
    rw [parsePageRange, Finset.mem_sort] at hp
    exact mem_parts_foldl maxPages _ ∅ (by simp) p hp
  · intro acc part hdash hbad
    unfold pagesOfPart
    dsimp only
    rw [if_neg (by simpa using hdash)]
    split
    · rename_i n hn
      rw [if_neg (hbad n hn)]
    · rfl
  · intro acc part hdash hrev
    unfold pagesOfPart
    dsimp only
    rw [if_pos hdash]
    split
    · rename_i s e hpr
      have hs : (parseRangeEnds (trimChars part)).1 = some s := by rw [hpr]
      have he : (parseRangeEnds (trimChars part)).2 = some e := by rw [hpr]
      have h3 := hrev s e hs he
      rw [if_neg (by omega)]
    · rfl

/-- Witness for C10 on the concrete range string `"0,abc,5-3,2,10-12"`
with `maxPages = 10`. -/
theorem C10_parsePageRange_invariant_witness : (0 : Int) ≤ 10 ∧
    List.Sorted (· < ·) (parsePageRange "0,abc,5-3,2,10-12" 10) :=
  ⟨by decide, (C10_parsePageRange_invariant "0,abc,5-3,2,10-12" 10 (by decide)).1⟩
